import Mathlib

/-!
Shallow embedding of `mmpose/datasets/datasets2/body/coco_dataset.py`
(class `CocoDataset`): the annotation-to-record pipeline (geometry
normalization, instance validity, topdown/bottomup assembly, detection
result loading, score filtering) together with narrow models of the
external collaborators (COCO index, RLE mask library).

Numeric convention: python floats are modelled as exact rationals; machine
integer fields are `Nat`.  Python dict keys that may be absent on some
records are modelled as `Option` fields (a `none` field corresponds to an
absent key or a stored `None` value).
-/

namespace CocoDS

/-- Region descriptor of one instance: a (possibly multi-part) opaque
segmentation, each part identified by a token.  Python truthiness of the
descriptor corresponds to the list being nonempty. -/
abbrev Seg := List Nat

/-- Run-length-encoded mask produced by the external mask library
(`cocomask.frPyObjects`).  `whole` is the single mask built from a crowd
instance's unitary descriptor; `part` is one mask built from one part of a
non-crowd descriptor.  Both carry the image resolution they were built at. -/
inductive RLE where
  | whole (seg : Seg) (h w : Nat)
  | part (p : Nat) (h w : Nat)
deriving DecidableEq, Repr

/-- Result of `cocomask.merge`: the union of a list of RLE masks, kept
abstract as the list of merged regions (the library's merge is opaque; the
code only ever stores its result). -/
structure MergedRLE where
  regions : List RLE
deriving DecidableEq, Repr

/-- Merge of a list of RLE masks (`cocomask.merge`).  Merging the empty
list is defined and yields the merge over no regions. -/
def mergeRLE (rles : List RLE) : MergedRLE := ⟨rles⟩

/-- Dataset metadata consumed by the pipeline: `sigmas` and the keypoint
count K (`self.metainfo`). -/
structure MetaInfo where
  sigmas : List ℚ
  num_keypoints : Nat
deriving DecidableEq, Repr

/-- Bounding box in (x, y, w, h) form (one row of the `[1, 4]` array). -/
structure BBox where
  x : ℚ
  y : ℚ
  w : ℚ
  h : ℚ
deriving DecidableEq, Repr

/-- Canonical instance record (`data_info` dict).  Keys that are present on
the ground-truth path but absent on the detection-result path
(`num_keypoints`, `iscrowd`, `segmentation`, `sigmas`) are `Option`
fields, `none` meaning the key is absent (or holds `None`). -/
structure Record where
  image_id : Nat
  image_file : String
  image_shape : Nat × Nat × Nat
  bbox : BBox
  bbox_score : ℚ
  num_keypoints : Option Nat
  keypoints : List (ℚ × ℚ)
  keypoints_visible : List ℚ
  iscrowd : Option Nat
  segmentation : Option Seg
  id : Nat
  sigmas : Option (List ℚ)
deriving DecidableEq, Repr

/-- Raw COCO annotation of one instance (fields of `raw_ann_info` used by
the code).  `keypoints` is the flat x,y,v triple list. -/
structure Ann where
  id : Nat
  image_id : Nat
  bbox : BBox
  keypoints : List ℚ
  num_keypoints : Option Nat
  iscrowd : Option Nat
  segmentation : Option Seg
deriving DecidableEq, Repr

/-- Raw image entry of the COCO index (fields of `raw_img_info` used by
the code). -/
structure Image where
  id : Nat
  file_name : String
  width : Nat
  height : Nat
deriving DecidableEq, Repr

/-- Clamp a value into `[lo, hi]` (`np.clip`; when `lo > hi` the result is
`hi`, as numpy applies the upper bound last). -/
def clip (v lo hi : ℚ) : ℚ := min (max v lo) hi

/-- Group the flat x,y,v keypoint list into triples
(`np.array(...).reshape(1, -1, 3)`; a trailing fragment shorter than 3
cannot occur for well-formed input of length 3K). -/
def toTriples : List ℚ → List (ℚ × ℚ × ℚ)
  | x :: y :: v :: rest => (x, y, v) :: toTriples rest
  | _ => []

/-- Geometry Normalizer (`CocoDataset.parse_data_info`): turn one raw
annotation plus its owning image into a canonical instance record. -/
def parse_data_info (meta : MetaInfo) (imgDir : String) (ann : Ann)
    (img : Image) : Record :=
  let image_file := imgDir ++ "/" ++ img.file_name
  let imgW : ℚ := (img.width : ℚ)
  let imgH : ℚ := (img.height : ℚ)
  let x1 := clip ann.bbox.x 0 (imgW - 1)
  let y1 := clip ann.bbox.y 0 (imgH - 1)
  let x2 := clip (ann.bbox.x + ann.bbox.w) 0 (imgW - 1)
  let y2 := clip (ann.bbox.y + ann.bbox.h) 0 (imgH - 1)
  let triples := toTriples ann.keypoints
  let keypoints := triples.map (fun t => (t.1, t.2.1))
  let keypoints_visible := triples.map (fun t => min 1 t.2.2)
  let num_keypoints :=
    match ann.num_keypoints with
    | some n => n
    | none => (triples.filter (fun t => max t.1 t.2.1 ≠ 0)).length
  { image_id := ann.image_id
    image_file := image_file
    image_shape := (img.height, img.width, 3)
    bbox := ⟨x1, y1, x2 - x1, y2 - y1⟩
    bbox_score := 1
    num_keypoints := some num_keypoints
    keypoints := keypoints
    keypoints_visible := keypoints_visible
    iscrowd := some (ann.iscrowd.getD 0)
    segmentation := ann.segmentation
    id := ann.id
    sigmas := some meta.sigmas }

/-- Instance Validator (`CocoDataset._is_valid_instance`).  The source
reads the `iscrowd` and `num_keypoints` keys directly (they are always
present on the records this predicate is applied to); an absent key, which
would fault in the source, is mapped to `false` here. -/
def isValidInstance (r : Record) : Bool :=
  match r.iscrowd with
  | none => false
  | some crowd =>
    if crowd ≠ 0 then false
    else
      match r.num_keypoints with
      | none => false
      | some nkp =>
        if nkp = 0 then false
        else if r.bbox.w ≤ 0 ∨ r.bbox.h ≤ 0 then false
        else true

/-- Topdown Assembler (`CocoDataset._get_topdown_data_infos`): keep the
valid instances, order preserved. -/
def getTopdownDataInfos (data_list : List Record) : List Record :=
  data_list.filter isValidInstance

/-- Optional filter configuration (`filter_cfg` dict; the only recognized
key is `bbox_score_thr`). -/
structure FilterCfg where
  bbox_score_thr : Option ℚ
deriving DecidableEq, Repr

/-- Post-Filter (`CocoDataset.filter_data`): with no configured threshold
the list is returned unchanged; with a threshold, records whose
`bbox_score` is below it are dropped (`filterfalse`), but only in topdown
mode — otherwise a configuration error is raised. -/
def filter_data (data_mode : String) (filter_cfg : Option FilterCfg)
    (data_list : List Record) : Except String (List Record) :=
  match filter_cfg with
  | none => .ok data_list
  | some cfg =>
    match cfg.bbox_score_thr with
    | none => .ok data_list
    | some thr =>
      if data_mode ≠ "topdown" then
        .error "bbox_score_thr is only supported in topdown mode"
      else
        .ok (data_list.filter (fun ann => ! decide (ann.bbox_score < thr)))

/-- Aggregate per-image record produced by the Bottomup Assembler
(`data_info_bu`): the four scalar fields plus every per-instance field of
`Record` concatenated along the instance axis, plus the merged invalid
mask. -/
structure AggRecord where
  image_id : Nat
  image_file : String
  image_shape : Nat × Nat × Nat
  sigmas : Option (List ℚ)
  bbox : List BBox
  bbox_score : List ℚ
  num_keypoints : List (Option Nat)
  keypoints : List (List (ℚ × ℚ))
  keypoints_visible : List (List ℚ)
  iscrowd : List (Option Nat)
  segmentation : List (Option Seg)
  id : List Nat
  mask_invalid_rle : MergedRLE
deriving DecidableEq, Repr

/-- RLE contributions of one instance to the invalid-region mask (the body
of the `for data_info_invalid in filterfalse(...)` loop): skipped when the
segmentation is absent or falsy; a crowd instance contributes the single
mask of its unitary descriptor; a non-crowd instance with zero keypoints
contributes one mask per part; any other instance contributes nothing.
The source reads the `iscrowd` / `num_keypoints` keys directly (always
present on the records this loop sees); an absent key, which would fault
in the source, is given the non-contributing default here. -/
def instInvalidRLEs (imgH imgW : Nat) (r : Record) : List RLE :=
  match r.segmentation with
  | none => []
  | some seg =>
    if seg = [] then []
    else if r.iscrowd.getD 0 ≠ 0 then [RLE.whole seg imgH imgW]
    else if r.num_keypoints.getD 1 = 0 then
      seg.map (fun p => RLE.part p imgH imgW)
    else []

/-- Group a list into maximal runs of equal keys, each run tagged with its
key (`itertools.groupby(data_list, lambda x: x['image_id'])`).  This
right-fold formulation produces exactly the contiguous runs of the input
in order. -/
def groupByKey {α : Type} (key : α → Nat) : List α → List (Nat × List α)
  | [] => []
  | x :: xs =>
    match groupByKey key xs with
    | [] => [(key x, [x])]
    | (k, g) :: rest =>
      if key x = k then (key x, x :: g) :: rest
      else (key x, [x]) :: (k, g) :: rest

/-- Body of the per-group loop of `CocoDataset._get_bottomup_data_infos`:
partition the group by the Validator, drop the group when no instance is
valid, otherwise build the aggregate record (scalars from the first valid
instance, per-instance fields concatenated over the valid instances, and
the merged mask of the invalid instances' regions at the first valid
instance's image resolution). -/
def assembleGroup (imageId : Nat) (grp : List Record) : Option AggRecord :=
  match grp.filter isValidInstance with
  | [] => none
  | v0 :: vrest =>
    let valid := v0 :: vrest
    let imgH := v0.image_shape.1
    let imgW := v0.image_shape.2.1
    some
      { image_id := imageId
        image_file := v0.image_file
        image_shape := v0.image_shape
        sigmas := v0.sigmas
        bbox := valid.map Record.bbox
        bbox_score := valid.map Record.bbox_score
        num_keypoints := valid.map Record.num_keypoints
        keypoints := valid.map Record.keypoints
        keypoints_visible := valid.map Record.keypoints_visible
        iscrowd := valid.map Record.iscrowd
        segmentation := valid.map Record.segmentation
        id := valid.map Record.id
        mask_invalid_rle :=
          mergeRLE ((grp.filter (fun r => ! isValidInstance r)).flatMap
            (instInvalidRLEs imgH imgW)) }

/-- Bottomup Assembler (`CocoDataset._get_bottomup_data_infos`): group the
record list into contiguous runs of equal `image_id` and assemble each
group, dropping groups with no valid instance. -/
def getBottomupDataInfos (data_list : List Record) : List AggRecord :=
  (groupByKey Record.image_id data_list).filterMap
    (fun g => assembleGroup g.1 g.2)

/-- Modelled from the spec: the external Annotation Index (`COCO`), out of
scope of the source file.  It supports enumerating image ids, image
metadata lookup by id, and annotation lookup by image id under a crowd
filter. -/
structure CocoIndex where
  images : List Image
  anns : List Ann
deriving DecidableEq, Repr

/-- Modelled from the spec: `coco.getAnnIds(imgIds=img_id, iscrowd=False)`
followed by `coco.loadAnns` — the annotations of the given image whose
crowd flag does not match the crowd filter are excluded, in stored
order. -/
def getAnnsNonCrowd (coco : CocoIndex) (imgId : Nat) : List Ann :=
  coco.anns.filter (fun a => a.image_id = imgId ∧ a.iscrowd.getD 0 = 0)

/-- Modelled from the spec: `coco.loadImgs(image_id)[0]` — image metadata
lookup by id (a missing id faults in the library, hence `Option`). -/
def loadImg (coco : CocoIndex) (imgId : Nat) : Option Image :=
  coco.images.find? (fun im => im.id == imgId)

/-- Ground-truth loader (`CocoDataset._load_annotations`): for every image
id of the index in order, parse every non-crowd annotation of that image
into a record.  (The `if not data_info: continue` guard of the source
never fires: `parse_data_info` always returns a record.) -/
def loadAnnotations (meta : MetaInfo) (imgDir : String)
    (coco : CocoIndex) : List Record :=
  coco.images.flatMap
    (fun img => (getAnnsNonCrowd coco img.id).map
      (fun a => parse_data_info meta imgDir a img))

/-- External detection dict (one entry of the `bbox_file` contents). -/
structure Det where
  image_id : Nat
  category_id : Nat
  bbox : List ℚ
  score : ℚ
deriving DecidableEq, Repr

/-- First four values of a detection's bbox list
(`np.array(det['bbox'][:4]).reshape(1, 4)`; fewer than four values makes
the reshape fault, hence `Option`). -/
def bboxOfList : List ℚ → Option BBox
  | x :: y :: w :: h :: _ => some ⟨x, y, w, h⟩
  | _ => none

/-- Record emitted by the Detection-Result Adapter for one kept detection:
bbox and score from the detection (no clipping), dummy all-zero keypoints
and all-one visibilities of the configured keypoint count, and the
sequentially assigned id `i`.  The source dict carries no
`num_keypoints`, `iscrowd`, `segmentation` or `sigmas` keys. -/
def mkDetRecord (meta : MetaInfo) (imgDir : String) (det : Det)
    (img : Image) (bb : BBox) (i : Nat) : Record :=
  { image_id := det.image_id
    image_file := imgDir ++ "/" ++ img.file_name
    image_shape := (img.height, img.width, 3)
    bbox := bb
    bbox_score := det.score
    num_keypoints := none
    keypoints := List.replicate meta.num_keypoints (0, 0)
    keypoints_visible := List.replicate meta.num_keypoints 1
    iscrowd := none
    segmentation := none
    id := i
    sigmas := none }

/-- Loop of `CocoDataset._load_detection_results` with the running id
counter `i` (`id_` in the source): skip detections whose `category_id` is
not 1; emit one record per kept detection, incrementing the counter only
on emission.  A failed image lookup or a short bbox list faults in the
source, modelled as `none`. -/
def loadDetGo (meta : MetaInfo) (imgDir : String) (coco : CocoIndex) :
    List Det → Nat → Option (List Record)
  | [], _ => some []
  | det :: rest, i =>
    if det.category_id ≠ 1 then loadDetGo meta imgDir coco rest i
    else
      match loadImg coco det.image_id, bboxOfList det.bbox with
      | some img, some bb =>
        (loadDetGo meta imgDir coco rest (i + 1)).map
          (fun tl => mkDetRecord meta imgDir det img bb i :: tl)
      | _, _ => none

/-- Detection-Result Adapter (`CocoDataset._load_detection_results`): the
id counter starts at 0. -/
def loadDetectionResults (meta : MetaInfo) (imgDir : String)
    (coco : CocoIndex) (dets : List Det) : Option (List Record) :=
  loadDetGo meta imgDir coco dets 0

/-- Stage of dataset initialization at which an error is raised. -/
inductive Stage where
  | configCheck
  | loadData
  | filterStage
deriving DecidableEq, Repr

/-- Python truthiness of the optional `bbox_file` string (`if bbox_file:`
is false for both `None` and the empty string). -/
def strTruthy : Option String → Bool
  | none => false
  | some s => s ≠ ""

/-- Constructor checks of `CocoDataset.__init__`, in source order: reject
an invalid `data_mode`; with a truthy `bbox_file`, reject a non-topdown
mode and then a disabled test mode. -/
def initChecks (data_mode : String) (bbox_file : Option String)
    (test_mode : Bool) : Except String Unit :=
  if data_mode ≠ "topdown" ∧ data_mode ≠ "bottomup" then
    .error "invalid data_mode"
  else if strTruthy bbox_file ∧ data_mode ≠ "topdown" then
    .error "bbox_file is only supported in topdown mode"
  else if strTruthy bbox_file ∧ ¬ test_mode then
    .error "bbox_file is only supported when test_mode is true"
  else
    .ok ()

/-- Modelled from the spec: the generic dataset lifecycle (out-of-scope
base-class plumbing).  Full initialization runs the constructor's
configuration checks, then `load_data_list` (detection results when
`bbox_file` is truthy, otherwise annotation loading plus mode-specific
assembly), then `filter_data` on the loaded list — the source's
`filter_data` reads `self.data_list`, the already loaded list.  Each
error is tagged with the stage that raised it. -/
def fullInit (data_mode : String) (bbox_file : Option String)
    (test_mode : Bool) (filter_cfg : Option FilterCfg) (meta : MetaInfo)
    (imgDir : String) (coco : CocoIndex) (dets : List Det) :
    Except (Stage × String) (List Record ⊕ List AggRecord) :=
  match initChecks data_mode bbox_file test_mode with
  | .error e => .error (Stage.configCheck, e)
  | .ok _ =>
    if strTruthy bbox_file then
      match loadDetectionResults meta imgDir coco dets with
      | none => .error (Stage.loadData, "failed to load detection results")
      | some data_list =>
        match filter_data data_mode filter_cfg data_list with
        | .error e => .error (Stage.filterStage, e)
        | .ok l => .ok (Sum.inl l)
    else if data_mode = "topdown" then
      match filter_data data_mode filter_cfg
          (getTopdownDataInfos (loadAnnotations meta imgDir coco)) with
      | .error e => .error (Stage.filterStage, e)
      | .ok l => .ok (Sum.inl l)
    else
      match filter_cfg with
      | none => .ok (Sum.inr (getBottomupDataInfos (loadAnnotations meta imgDir coco)))
      | some cfg =>
        match cfg.bbox_score_thr with
        | none => .ok (Sum.inr (getBottomupDataInfos (loadAnnotations meta imgDir coco)))
        | some _ =>
          .error (Stage.filterStage,
            "bbox_score_thr is only supported in topdown mode")

/-! ## Helper lemmas and example inputs -/

/-- Sample record builder used by concrete witnesses: an instance record of
the given image id, crowd flag, keypoint count, box and id. -/
def mkRec (img crowd nkp : Nat) (bb : BBox) (i : Nat) (seg : Option Seg) :
    Record :=
  { image_id := img
    image_file := "img.jpg"
    image_shape := (10, 10, 3)
    bbox := bb
    bbox_score := 1
    num_keypoints := some nkp
    keypoints := []
    keypoints_visible := []
    iscrowd := some crowd
    segmentation := seg
    id := i
    sigmas := some [1] }

/-- Sample metadata used by concrete witnesses. -/
def exMeta : MetaInfo := ⟨[1], 3⟩

/-- Sample image of size 10 × 10 used by concrete witnesses. -/
def exImg : Image := ⟨1, "a.jpg", 10, 10⟩

theorem isValidInstance_false_of_degenerate (r : Record)
    (hwh : r.bbox.w ≤ 0 ∨ r.bbox.h ≤ 0) : isValidInstance r = false := by
  unfold isValidInstance
  cases hic : r.iscrowd with
  | none => rfl
  | some c =>
    dsimp only
    by_cases hc : c ≠ 0
    · rw [if_pos hc]
    · rw [if_neg hc]
      cases hk : r.num_keypoints with
      | none => rfl
      | some k =>
        dsimp only
        by_cases hk0 : k = 0
        · rw [if_pos hk0]
        · rw [if_neg hk0, if_pos hwh]

theorem clip_extent_nonpos (v e W : ℚ) (h : v + e ≤ 0 ∨ W ≤ v) :
    clip (v + e) 0 (W - 1) - clip v 0 (W - 1) ≤ 0 := by
  unfold clip
  rcases h with h1 | h2
  · rw [max_eq_right h1]
    refine sub_nonpos.mpr (min_le_min ?_ le_rfl)
    exact le_max_right v 0
  · have h3 : W - 1 ≤ max v 0 := le_trans (by linarith) (le_max_left v 0)
    rw [min_eq_right h3]
    exact sub_nonpos.mpr (min_le_right _ _)

/-- Box (x, y, w, h) lies fully outside the image rectangle
`[0, W] × [0, H]`: its horizontal span `[x, x+w]` or its vertical span
`[y, y+h]` is disjoint from the image's span on that axis. -/
def fullyOutside (b : BBox) (W H : Nat) : Prop :=
  b.x + b.w ≤ 0 ∨ (W : ℚ) ≤ b.x ∨ b.y + b.h ≤ 0 ∨ (H : ℚ) ≤ b.y

/-! ## Claim theorems -/

/-- Claim C1: the Validator marks a canonical instance record invalid
exactly when its crowd flag is truthy, its keypoint count is zero, or its
normalized box width or height is ≤ 0; the Topdown Assembler filters by
this predicate and the Bottomup Assembler partitions each group by the
same predicate (valid instances are concatenated, invalid instances feed
the mask). -/
theorem validator_single_source (r : Record) (c k : Nat)
    (hc : r.iscrowd = some c) (hk : r.num_keypoints = some k) :
    (isValidInstance r = false ↔
      (c ≠ 0 ∨ k = 0 ∨ r.bbox.w ≤ 0 ∨ r.bbox.h ≤ 0)) ∧
    (∀ l : List Record, getTopdownDataInfos l = l.filter isValidInstance) ∧
    (∀ (k' : Nat) (grp : List Record) (a : AggRecord),
      assembleGroup k' grp = some a →
        a.id = (grp.filter isValidInstance).map Record.id ∧
        ∃ imgH imgW, a.mask_invalid_rle =
          mergeRLE ((grp.filter (fun x => ! isValidInstance x)).flatMap
            (instInvalidRLEs imgH imgW))) := by
  refine ⟨?_, fun _ => rfl, ?_⟩
  · unfold isValidInstance
    rw [hc, hk]
    dsimp only
    split_ifs with h1 h2 h3
    · simp [h1]
    · simp [h2]
    · simp [h3]
    · simp only [false_iff]
      rintro (h | h | h | h)
      · exact h1 h
      · exact h2 h
      · exact h3 (Or.inl h)
      · exact h3 (Or.inr h)
  · intro k' grp a h
    unfold assembleGroup at h
    cases hf : grp.filter isValidInstance with
    | nil => rw [hf] at h; exact absurd h (by simp)
    | cons v0 vs =>
      rw [hf] at h
      dsimp only at h
      cases h
      exact ⟨rfl, v0.image_shape.1, v0.image_shape.2.1, rfl⟩

/-- Claim C1 witness at a concrete record. -/
theorem validator_single_source_w :
    (isValidInstance (mkRec 1 0 5 ⟨0, 0, 3, 3⟩ 0 none) = false ↔
      ((0 : Nat) ≠ 0 ∨ (5 : Nat) = 0 ∨
        (mkRec 1 0 5 ⟨0, 0, 3, 3⟩ 0 none).bbox.w ≤ 0 ∨
        (mkRec 1 0 5 ⟨0, 0, 3, 3⟩ 0 none).bbox.h ≤ 0)) ∧
    (∀ l : List Record, getTopdownDataInfos l = l.filter isValidInstance) ∧
    (∀ (k' : Nat) (grp : List Record) (a : AggRecord),
      assembleGroup k' grp = some a →
        a.id = (grp.filter isValidInstance).map Record.id ∧
        ∃ imgH imgW, a.mask_invalid_rle =
          mergeRLE ((grp.filter (fun x => ! isValidInstance x)).flatMap
            (instInvalidRLEs imgH imgW))) :=
  validator_single_source (mkRec 1 0 5 ⟨0, 0, 3, 3⟩ 0 none) 0 5 rfl rfl

/-- Claim C2 counterexample: the box (2, -5, 3, 2) in a 10 × 10 image lies
fully outside the image bounds (its vertical span [-5, -3] is disjoint
from [0, 10]), yet the normalized width is 3 > 0 — the claim's "width and
height are ≤ 0" fails (only the height is ≤ 0). -/
theorem geometry_outside_ctrex :
    fullyOutside ⟨2, -5, 3, 2⟩ 10 10 ∧
    ¬ ((parse_data_info exMeta "d" ⟨0, 1, ⟨2, -5, 3, 2⟩, [], some 5, some 0, none⟩ exImg).bbox.w ≤ 0) ∧
    (parse_data_info exMeta "d" ⟨0, 1, ⟨2, -5, 3, 2⟩, [], some 5, some 0, none⟩ exImg).bbox.h ≤ 0 := by
  have hb : (parse_data_info exMeta "d" ⟨0, 1, ⟨2, -5, 3, 2⟩, [], some 5, some 0, none⟩
      exImg).bbox = ⟨2, 0, 3, 0⟩ := by
    norm_num [parse_data_info, clip, exImg, min_def, max_def]
  refine ⟨?_, ?_, ?_⟩
  · unfold fullyOutside
    right; right; left
    norm_num
  · rw [hb]
    exact (by norm_num : ¬ ((3 : ℚ) ≤ 0))
  · rw [hb]

/-- Claim C2 (amended): the Geometry Normalizer stores the box as
(x1, y1, x2 - x1, y2 - y1) with the corners clipped into
`[0, W-1]` / `[0, H-1]` per axis, raising no error (it is a total
function); and for every source box lying fully outside the image bounds
the normalized width OR height is ≤ 0 — namely the extent of every axis
on which the box lies outside — and the Validator marks the instance
invalid regardless of its keypoints. -/
theorem geometry_normalizer_outside (meta : MetaInfo) (imgDir : String)
    (ann : Ann) (img : Image) :
    (parse_data_info meta imgDir ann img).bbox =
      ⟨clip ann.bbox.x 0 ((img.width : ℚ) - 1),
       clip ann.bbox.y 0 ((img.height : ℚ) - 1),
       clip (ann.bbox.x + ann.bbox.w) 0 ((img.width : ℚ) - 1) -
         clip ann.bbox.x 0 ((img.width : ℚ) - 1),
       clip (ann.bbox.y + ann.bbox.h) 0 ((img.height : ℚ) - 1) -
         clip ann.bbox.y 0 ((img.height : ℚ) - 1)⟩ ∧
    (fullyOutside ann.bbox img.width img.height →
      ((parse_data_info meta imgDir ann img).bbox.w ≤ 0 ∨
        (parse_data_info meta imgDir ann img).bbox.h ≤ 0) ∧
      isValidInstance (parse_data_info meta imgDir ann img) = false) := by
  refine ⟨rfl, fun hout => ?_⟩
  have hwh : (parse_data_info meta imgDir ann img).bbox.w ≤ 0 ∨
      (parse_data_info meta imgDir ann img).bbox.h ≤ 0 := by
    have hw : (parse_data_info meta imgDir ann img).bbox.w =
        clip (ann.bbox.x + ann.bbox.w) 0 ((img.width : ℚ) - 1) -
          clip ann.bbox.x 0 ((img.width : ℚ) - 1) := rfl
    have hh : (parse_data_info meta imgDir ann img).bbox.h =
        clip (ann.bbox.y + ann.bbox.h) 0 ((img.height : ℚ) - 1) -
          clip ann.bbox.y 0 ((img.height : ℚ) - 1) := rfl
    rcases hout with h | h | h | h
    · exact Or.inl (hw ▸ clip_extent_nonpos _ _ _ (Or.inl h))
    · exact Or.inl (hw ▸ clip_extent_nonpos _ _ _ (Or.inr h))
    · exact Or.inr (hh ▸ clip_extent_nonpos _ _ _ (Or.inl h))
    · exact Or.inr (hh ▸ clip_extent_nonpos _ _ _ (Or.inr h))
  exact ⟨hwh, isValidInstance_false_of_degenerate _ hwh⟩

/-- Claim C2 witness at a concrete fully-outside box: the box
(12, 3, 2, 2) lies right of a 10 × 10 image; its normalized width is ≤ 0
and the instance is invalid although it has 5 keypoints. -/
theorem geometry_normalizer_outside_w :
    fullyOutside ⟨12, 3, 2, 2⟩ 10 10 ∧
    (((parse_data_info exMeta "d" ⟨7, 1, ⟨12, 3, 2, 2⟩, [], some 5, some 0, none⟩ exImg).bbox.w ≤ 0 ∨
      (parse_data_info exMeta "d" ⟨7, 1, ⟨12, 3, 2, 2⟩, [], some 5, some 0, none⟩ exImg).bbox.h ≤ 0) ∧
     isValidInstance (parse_data_info exMeta "d" ⟨7, 1, ⟨12, 3, 2, 2⟩, [], some 5, some 0, none⟩ exImg) = false) :=
  ⟨by unfold fullyOutside; right; left; norm_num,
   (geometry_normalizer_outside exMeta "d" ⟨7, 1, ⟨12, 3, 2, 2⟩, [], some 5, some 0, none⟩ exImg).2
     (by unfold fullyOutside; right; left; norm_num [exImg])⟩

theorem groupByKey_sound {α : Type} (key : α → Nat) (l : List α) :
    ∀ g ∈ groupByKey key l, ∀ r ∈ g.2, r ∈ l ∧ key r = g.1 := by
  induction l with
  | nil =>
    intro g hg
    simp [groupByKey] at hg
  | cons x xs ih =>
    intro g hg r hr
    simp only [groupByKey] at hg
    cases hgx : groupByKey key xs with
    | nil =>
      rw [hgx] at hg
      dsimp only at hg
      obtain rfl := List.mem_singleton.mp hg
      obtain rfl := List.mem_singleton.mp hr
      exact ⟨List.mem_cons_self _ _, rfl⟩
    | cons p rest =>
      obtain ⟨k, gr⟩ := p
      rw [hgx] at hg
      dsimp only at hg
      by_cases hxk : key x = k
      · rw [if_pos hxk] at hg
        rcases List.mem_cons.mp hg with rfl | hg'
        · rcases List.mem_cons.mp hr with rfl | hr'
          · exact ⟨List.mem_cons_self _ _, rfl⟩
          · have h2 := ih (k, gr) (by rw [hgx]; exact List.mem_cons_self _ _) r hr'
            exact ⟨List.mem_cons_of_mem _ h2.1, by rw [h2.2, ← hxk]⟩
        · have h2 := ih g (by rw [hgx]; exact List.mem_cons_of_mem _ hg') r hr
          exact ⟨List.mem_cons_of_mem _ h2.1, h2.2⟩
      · rw [if_neg hxk] at hg
        rcases List.mem_cons.mp hg with rfl | hg'
        · obtain rfl := List.mem_singleton.mp hr
          exact ⟨List.mem_cons_self _ _, rfl⟩
        · have h2 := ih g (by rw [hgx]; exact hg') r hr
          exact ⟨List.mem_cons_of_mem _ h2.1, h2.2⟩

theorem groupByKey_complete {α : Type} (key : α → Nat) (l : List α) :
    ∀ r ∈ l, ∃ g ∈ groupByKey key l, r ∈ g.2 := by
  induction l with
  | nil =>
    intro r hr
    exact absurd hr (List.not_mem_nil r)
  | cons x xs ih =>
    intro r hr
    simp only [groupByKey]
    cases hgx : groupByKey key xs with
    | nil =>
      dsimp only
      rcases List.mem_cons.mp hr with rfl | hr'
      · exact ⟨(key r, [r]), List.mem_singleton.mpr rfl, List.mem_singleton.mpr rfl⟩
      · rcases ih r hr' with ⟨g, hg, _⟩
        rw [hgx] at hg
        exact absurd hg (List.not_mem_nil g)
    | cons p rest =>
      obtain ⟨k, gr⟩ := p
      dsimp only
      by_cases hxk : key x = k
      · rw [if_pos hxk]
        rcases List.mem_cons.mp hr with rfl | hr'
        · exact ⟨(key r, r :: gr), List.mem_cons_self _ _, List.mem_cons_self _ _⟩
        · rcases ih r hr' with ⟨g, hg, hrg⟩
          rw [hgx] at hg
          rcases List.mem_cons.mp hg with rfl | hg'
          · exact ⟨(key x, x :: gr), List.mem_cons_self _ _,
              List.mem_cons_of_mem _ hrg⟩
          · exact ⟨g, List.mem_cons_of_mem _ hg', hrg⟩
      · rw [if_neg hxk]
        rcases List.mem_cons.mp hr with rfl | hr'
        · exact ⟨(key r, [r]), List.mem_cons_self _ _, List.mem_singleton.mpr rfl⟩
        · rcases ih r hr' with ⟨g, hg, hrg⟩
          rw [hgx] at hg
          exact ⟨g, List.mem_cons_of_mem _ hg, hrg⟩

theorem assembleGroup_isSome (k : Nat) (grp : List Record) :
    (assembleGroup k grp).isSome = grp.any isValidInstance := by
  unfold assembleGroup
  cases hf : grp.filter isValidInstance with
  | nil =>
    dsimp only [Option.isSome]
    symm
    rw [List.any_eq_false]
    intro x hx
    exact (List.filter_eq_nil_iff.mp hf) x hx
  | cons v vs =>
    dsimp only [Option.isSome]
    symm
    rw [List.any_eq_true]
    have hv : v ∈ grp.filter isValidInstance := by
      rw [hf]
      exact List.mem_cons_self _ _
    exact ⟨v, List.mem_of_mem_filter hv, (List.mem_filter.mp hv).2⟩

theorem assembleGroup_image_id {k : Nat} {grp : List Record} {a : AggRecord}
    (h : assembleGroup k grp = some a) : a.image_id = k := by
  unfold assembleGroup at h
  cases hf : grp.filter isValidInstance with
  | nil => rw [hf] at h; cases h
  | cons v vs =>
    rw [hf] at h
    dsimp only at h
    cases h
    rfl

theorem filterMap_assemble_ids (gs : List (Nat × List Record)) :
    (gs.filterMap (fun g => assembleGroup g.1 g.2)).map AggRecord.image_id =
      (gs.filter (fun g => g.2.any isValidInstance)).map Prod.fst := by
  induction gs with
  | nil => rfl
  | cons g gs ih =>
    cases ha : assembleGroup g.1 g.2 with
    | none =>
      have h2 : g.2.any isValidInstance = false := by
        rw [← assembleGroup_isSome g.1, ha]
        rfl
      simp [List.filterMap_cons, List.filter_cons, ha, h2, ih]
    | some a =>
      have h2 : g.2.any isValidInstance = true := by
        rw [← assembleGroup_isSome g.1, ha]
        rfl
      simp [List.filterMap_cons, List.filter_cons, ha, h2, ih,
        assembleGroup_image_id ha]

/-- Claim C3 counterexample: the Bottomup Assembler groups only contiguous
runs of equal `image_id`; on an input list with image ids 1, 2, 1 (all
instances valid) it emits three aggregate records — two of them for the
single distinct image id 1 — contradicting "exactly one aggregate record
per distinct image_id". -/
theorem bottomup_one_per_image_ctrex :
    ((getBottomupDataInfos
        [mkRec 1 0 2 ⟨0, 0, 5, 5⟩ 0 none, mkRec 2 0 2 ⟨0, 0, 5, 5⟩ 1 none,
          mkRec 1 0 2 ⟨0, 0, 5, 5⟩ 2 none]).map AggRecord.image_id) = [1, 2, 1] ∧
    ((getBottomupDataInfos
        [mkRec 1 0 2 ⟨0, 0, 5, 5⟩ 0 none, mkRec 2 0 2 ⟨0, 0, 5, 5⟩ 1 none,
          mkRec 1 0 2 ⟨0, 0, 5, 5⟩ 2 none]).map AggRecord.image_id).count 1 = 2 := by
  constructor <;> rfl

/-- Claim C3 (amended): for every input record list in which records
sharing an `image_id` are contiguous (equivalently, the run keys produced
by grouping are duplicate-free — the shape produced by the annotation
loader), the Bottomup Assembler emits exactly one aggregate record per
distinct image id having at least one valid instance, and an image all of
whose instances are invalid contributes zero aggregate records. -/
theorem bottomup_one_per_image (l : List Record)
    (hnd : ((groupByKey Record.image_id l).map Prod.fst).Nodup) :
    ((getBottomupDataInfos l).map AggRecord.image_id).Nodup ∧
    ∀ k, (k ∈ (getBottomupDataInfos l).map AggRecord.image_id ↔
      ∃ r ∈ l, r.image_id = k ∧ isValidInstance r = true) := by
  have hids : (getBottomupDataInfos l).map AggRecord.image_id =
      ((groupByKey Record.image_id l).filter
        (fun g => g.2.any isValidInstance)).map Prod.fst :=
    filterMap_assemble_ids _
  constructor
  · rw [hids]
    exact hnd.sublist ((List.filter_sublist _).map Prod.fst)
  · intro k
    rw [hids]
    constructor
    · intro hk
      rcases List.mem_map.mp hk with ⟨g, hg, hk1⟩
      rcases List.mem_filter.mp hg with ⟨hg1, hg2⟩
      rcases List.any_eq_true.mp hg2 with ⟨r, hr, hvr⟩
      have hmem := groupByKey_sound Record.image_id l g hg1 r hr
      exact ⟨r, hmem.1, hk1 ▸ hmem.2, hvr⟩
    · rintro ⟨r, hrl, hrk, hvr⟩
      rcases groupByKey_complete Record.image_id l r hrl with ⟨g, hg, hrg⟩
      have hkey := (groupByKey_sound Record.image_id l g hg r hrg).2
      refine List.mem_map.mpr ⟨g, List.mem_filter.mpr ⟨hg, ?_⟩, ?_⟩
      · exact List.any_eq_true.mpr ⟨r, hrg, hvr⟩
      · rw [← hrk, ← hkey]

/-- Claim C3 witness: a contiguous two-image list where image 1 has one
valid instance and image 2 has only an invalid (zero-keypoint) instance
yields exactly the aggregate for image 1. -/
theorem bottomup_one_per_image_w :
    ((getBottomupDataInfos
        [mkRec 1 0 2 ⟨0, 0, 5, 5⟩ 0 none,
          mkRec 2 0 0 ⟨0, 0, 5, 5⟩ 1 none]).map AggRecord.image_id).Nodup ∧
    ∀ k, (k ∈ (getBottomupDataInfos
        [mkRec 1 0 2 ⟨0, 0, 5, 5⟩ 0 none,
          mkRec 2 0 0 ⟨0, 0, 5, 5⟩ 1 none]).map AggRecord.image_id ↔
      ∃ r ∈ [mkRec 1 0 2 ⟨0, 0, 5, 5⟩ 0 none,
          mkRec 2 0 0 ⟨0, 0, 5, 5⟩ 1 none],
        r.image_id = k ∧ isValidInstance r = true) :=
  bottomup_one_per_image _ (by decide)

/-- Fallback aggregate used only to state concrete witnesses via
`Option.getD`. -/
def exAgg : AggRecord :=
  ⟨0, "", (0, 0, 0), none, [], [], [], [], [], [], [], [], ⟨[]⟩⟩

/-- Sample bottomup group for concrete witnesses: image 1 with a valid
instance, an invalid crowd instance carrying a one-part segmentation, and
an invalid zero-keypoint instance carrying a two-part segmentation. -/
def grpW : List Record :=
  [mkRec 1 0 2 ⟨0, 0, 5, 5⟩ 0 none,
    mkRec 1 1 5 ⟨0, 0, 5, 5⟩ 1 (some [7]),
    mkRec 1 0 0 ⟨0, 0, 5, 5⟩ 2 (some [8, 9])]

/-- Claim C4: when an image group with at least one valid instance is
assembled, the aggregate takes `image_id`, `image_file`, `image_shape`
and `sigmas` from the first valid instance, and every other per-instance
field is the concatenation of that field over the valid instances in
order, each of length equal to the number of valid instances. -/
theorem bottomup_aggregate_fields (k : Nat) (grp : List Record)
    (a : AggRecord) (h : assembleGroup k grp = some a)
    (hall : ∀ r ∈ grp, r.image_id = k) :
    ∃ v0 vs, grp.filter isValidInstance = v0 :: vs ∧
      a.image_id = v0.image_id ∧
      a.image_file = v0.image_file ∧
      a.image_shape = v0.image_shape ∧
      a.sigmas = v0.sigmas ∧
      a.bbox = (grp.filter isValidInstance).map Record.bbox ∧
      a.bbox_score = (grp.filter isValidInstance).map Record.bbox_score ∧
      a.num_keypoints = (grp.filter isValidInstance).map Record.num_keypoints ∧
      a.keypoints = (grp.filter isValidInstance).map Record.keypoints ∧
      a.keypoints_visible =
        (grp.filter isValidInstance).map Record.keypoints_visible ∧
      a.iscrowd = (grp.filter isValidInstance).map Record.iscrowd ∧
      a.segmentation = (grp.filter isValidInstance).map Record.segmentation ∧
      a.id = (grp.filter isValidInstance).map Record.id ∧
      a.bbox.length = (grp.filter isValidInstance).length ∧
      a.bbox_score.length = (grp.filter isValidInstance).length ∧
      a.num_keypoints.length = (grp.filter isValidInstance).length ∧
      a.keypoints.length = (grp.filter isValidInstance).length ∧
      a.keypoints_visible.length = (grp.filter isValidInstance).length ∧
      a.iscrowd.length = (grp.filter isValidInstance).length ∧
      a.segmentation.length = (grp.filter isValidInstance).length ∧
      a.id.length = (grp.filter isValidInstance).length := by
  unfold assembleGroup at h
  cases hf : grp.filter isValidInstance with
  | nil => rw [hf] at h; cases h
  | cons v0 vs =>
    rw [hf] at h
    dsimp only at h
    cases h
    have hv0 : v0 ∈ grp := by
      refine List.mem_of_mem_filter (p := isValidInstance) ?_
      rw [hf]
      exact List.mem_cons_self v0 vs
    exact ⟨v0, vs, rfl, (hall v0 hv0).symm, rfl, rfl, rfl, rfl, rfl, rfl,
      rfl, rfl, rfl, rfl, rfl, List.length_map _ _, List.length_map _ _,
      List.length_map _ _, List.length_map _ _, List.length_map _ _,
      List.length_map _ _, List.length_map _ _, List.length_map _ _⟩

/-- Claim C4 witness on the concrete group `grpW`. -/
theorem bottomup_aggregate_fields_w :
    ∃ v0 vs, grpW.filter isValidInstance = v0 :: vs ∧
      ((assembleGroup 1 grpW).getD exAgg).image_id = v0.image_id ∧
      ((assembleGroup 1 grpW).getD exAgg).image_file = v0.image_file ∧
      ((assembleGroup 1 grpW).getD exAgg).image_shape = v0.image_shape ∧
      ((assembleGroup 1 grpW).getD exAgg).sigmas = v0.sigmas ∧
      ((assembleGroup 1 grpW).getD exAgg).bbox =
        (grpW.filter isValidInstance).map Record.bbox ∧
      ((assembleGroup 1 grpW).getD exAgg).bbox_score =
        (grpW.filter isValidInstance).map Record.bbox_score ∧
      ((assembleGroup 1 grpW).getD exAgg).num_keypoints =
        (grpW.filter isValidInstance).map Record.num_keypoints ∧
      ((assembleGroup 1 grpW).getD exAgg).keypoints =
        (grpW.filter isValidInstance).map Record.keypoints ∧
      ((assembleGroup 1 grpW).getD exAgg).keypoints_visible =
        (grpW.filter isValidInstance).map Record.keypoints_visible ∧
      ((assembleGroup 1 grpW).getD exAgg).iscrowd =
        (grpW.filter isValidInstance).map Record.iscrowd ∧
      ((assembleGroup 1 grpW).getD exAgg).segmentation =
        (grpW.filter isValidInstance).map Record.segmentation ∧
      ((assembleGroup 1 grpW).getD exAgg).id =
        (grpW.filter isValidInstance).map Record.id ∧
      ((assembleGroup 1 grpW).getD exAgg).bbox.length =
        (grpW.filter isValidInstance).length ∧
      ((assembleGroup 1 grpW).getD exAgg).bbox_score.length =
        (grpW.filter isValidInstance).length ∧
      ((assembleGroup 1 grpW).getD exAgg).num_keypoints.length =
        (grpW.filter isValidInstance).length ∧
      ((assembleGroup 1 grpW).getD exAgg).keypoints.length =
        (grpW.filter isValidInstance).length ∧
      ((assembleGroup 1 grpW).getD exAgg).keypoints_visible.length =
        (grpW.filter isValidInstance).length ∧
      ((assembleGroup 1 grpW).getD exAgg).iscrowd.length =
        (grpW.filter isValidInstance).length ∧
      ((assembleGroup 1 grpW).getD exAgg).segmentation.length =
        (grpW.filter isValidInstance).length ∧
      ((assembleGroup 1 grpW).getD exAgg).id.length =
        (grpW.filter isValidInstance).length :=
  bottomup_aggregate_fields 1 grpW ((assembleGroup 1 grpW).getD exAgg)
    (by rfl) (by decide)

/-- Claim C5: the aggregate's `mask_invalid_rle` is the merge of exactly
the regions contributed by the invalid instances at the first valid
instance's image resolution: one whole-descriptor mask per crowd
instance with a present segmentation, all part masks of a non-crowd
zero-keypoint instance with a present segmentation, nothing from an
instance invalid solely through a degenerate box, and the merge over the
empty region list when nothing contributes. -/
theorem bottomup_invalid_mask (k : Nat) (grp : List Record) (a : AggRecord)
    (h : assembleGroup k grp = some a) :
    (∃ v0 vs, grp.filter isValidInstance = v0 :: vs ∧
      a.mask_invalid_rle = mergeRLE
        ((grp.filter (fun r => ! isValidInstance r)).flatMap
          (instInvalidRLEs v0.image_shape.1 v0.image_shape.2.1)) ∧
      ((grp.filter (fun r => ! isValidInstance r)).flatMap
          (instInvalidRLEs v0.image_shape.1 v0.image_shape.2.1) = [] →
        a.mask_invalid_rle = mergeRLE [])) ∧
    (∀ imgH imgW r, r.segmentation = none →
      instInvalidRLEs imgH imgW r = []) ∧
    (∀ imgH imgW r, r.segmentation = some [] →
      instInvalidRLEs imgH imgW r = []) ∧
    (∀ imgH imgW r seg c, r.segmentation = some seg → seg ≠ [] →
      r.iscrowd = some c → c ≠ 0 →
      instInvalidRLEs imgH imgW r = [RLE.whole seg imgH imgW]) ∧
    (∀ imgH imgW r seg, r.segmentation = some seg → seg ≠ [] →
      r.iscrowd.getD 0 = 0 → r.num_keypoints = some 0 →
      instInvalidRLEs imgH imgW r =
        seg.map (fun p => RLE.part p imgH imgW)) ∧
    (∀ imgH imgW r seg n, r.segmentation = some seg →
      r.iscrowd.getD 0 = 0 → r.num_keypoints = some n → n ≠ 0 →
      instInvalidRLEs imgH imgW r = []) := by
  refine ⟨?_, ?_, ?_, ?_, ?_, ?_⟩
  · unfold assembleGroup at h
    cases hf : grp.filter isValidInstance with
    | nil => rw [hf] at h; cases h
    | cons v0 vs =>
      rw [hf] at h
      dsimp only at h
      cases h
      exact ⟨v0, vs, rfl, rfl, fun he => by
        show mergeRLE _ = mergeRLE []
        rw [he]⟩
  · intro imgH imgW r hseg
    unfold instInvalidRLEs
    rw [hseg]
  · intro imgH imgW r hseg
    unfold instInvalidRLEs
    rw [hseg]
    dsimp only
    rw [if_pos rfl]
  · intro imgH imgW r seg c hseg hne hic hc
    unfold instInvalidRLEs
    rw [hseg]
    dsimp only
    rw [if_neg hne, if_pos (show r.iscrowd.getD 0 ≠ 0 by rw [hic]; exact hc)]
  · intro imgH imgW r seg hseg hne hic hk
    unfold instInvalidRLEs
    rw [hseg]
    dsimp only
    rw [if_neg hne, if_neg (show ¬ r.iscrowd.getD 0 ≠ 0 from fun hcon => hcon hic),
      if_pos (show r.num_keypoints.getD 1 = 0 by rw [hk]; rfl)]
  · intro imgH imgW r seg n hseg hic hk hn
    unfold instInvalidRLEs
    rw [hseg]
    dsimp only
    by_cases hne : seg = []
    · rw [if_pos hne]
    · rw [if_neg hne,
        if_neg (show ¬ r.iscrowd.getD 0 ≠ 0 from fun hcon => hcon hic),
        if_neg (show ¬ r.num_keypoints.getD 1 = 0 by rw [hk]; exact hn)]

/-- Claim C5 witness on the concrete group `grpW` (one crowd contribution,
two zero-keypoint part contributions). -/
theorem bottomup_invalid_mask_w :
    (∃ v0 vs, grpW.filter isValidInstance = v0 :: vs ∧
      ((assembleGroup 1 grpW).getD exAgg).mask_invalid_rle = mergeRLE
        ((grpW.filter (fun r => ! isValidInstance r)).flatMap
          (instInvalidRLEs v0.image_shape.1 v0.image_shape.2.1)) ∧
      ((grpW.filter (fun r => ! isValidInstance r)).flatMap
          (instInvalidRLEs v0.image_shape.1 v0.image_shape.2.1) = [] →
        ((assembleGroup 1 grpW).getD exAgg).mask_invalid_rle =
          mergeRLE [])) ∧
    (∀ imgH imgW r, r.segmentation = none →
      instInvalidRLEs imgH imgW r = []) ∧
    (∀ imgH imgW r, r.segmentation = some [] →
      instInvalidRLEs imgH imgW r = []) ∧
    (∀ imgH imgW r seg c, r.segmentation = some seg → seg ≠ [] →
      r.iscrowd = some c → c ≠ 0 →
      instInvalidRLEs imgH imgW r = [RLE.whole seg imgH imgW]) ∧
    (∀ imgH imgW r seg, r.segmentation = some seg → seg ≠ [] →
      r.iscrowd.getD 0 = 0 → r.num_keypoints = some 0 →
      instInvalidRLEs imgH imgW r =
        seg.map (fun p => RLE.part p imgH imgW)) ∧
    (∀ imgH imgW r seg n, r.segmentation = some seg →
      r.iscrowd.getD 0 = 0 → r.num_keypoints = some n → n ≠ 0 →
      instInvalidRLEs imgH imgW r = []) :=
  bottomup_invalid_mask 1 grpW ((assembleGroup 1 grpW).getD exAgg) (by rfl)

theorem loadDetGo_spec (meta : MetaInfo) (imgDir : String)
    (coco : CocoIndex) (dets : List Det) (i : Nat) (out : List Record)
    (h : loadDetGo meta imgDir coco dets i = some out) :
    List.Forall₂
      (fun d r =>
        r.image_id = d.image_id ∧
        bboxOfList d.bbox = some r.bbox ∧
        r.bbox_score = d.score ∧
        r.keypoints = List.replicate meta.num_keypoints (0, 0) ∧
        r.keypoints_visible = List.replicate meta.num_keypoints 1)
      (dets.filter (fun d => d.category_id == 1)) out ∧
    out.map Record.id = List.range' i out.length := by
  induction dets generalizing i out with
  | nil =>
    cases h
    exact ⟨List.Forall₂.nil, rfl⟩
  | cons det rest ih =>
    rw [loadDetGo] at h
    by_cases hc : det.category_id ≠ 1
    · rw [if_pos hc] at h
      have hfl : (det :: rest).filter (fun d => d.category_id == 1) =
          rest.filter (fun d => d.category_id == 1) := by
        rw [List.filter_cons]
        simp [hc]
      rw [hfl]
      exact ih i out h
    · rw [if_neg hc] at h
      have hfl : (det :: rest).filter (fun d => d.category_id == 1) =
          det :: rest.filter (fun d => d.category_id == 1) := by
        rw [List.filter_cons]
        simp at hc
        simp [hc]
      rw [hfl]
      cases himg : loadImg coco det.image_id with
      | none => rw [himg] at h; cases h
      | some img =>
        cases hbb : bboxOfList det.bbox with
        | none => rw [himg, hbb] at h; cases h
        | some bb =>
          rw [himg, hbb] at h
          dsimp only at h
          rcases Option.map_eq_some'.mp h with ⟨tl, htl, rfl⟩
          rcases ih (i + 1) tl htl with ⟨ihf, ihr⟩
          constructor
          · exact List.Forall₂.cons ⟨rfl, hbb.symm ▸ rfl, rfl, rfl, rfl⟩ ihf
          · show i :: tl.map Record.id = List.range' i (tl.length + 1)
            rw [ihr, List.range'_succ]

/-- Claim C6: the Detection-Result Adapter skips every detection whose
`category_id` differs from 1 and emits, per kept detection in input
order, one record with the detection's first four bbox values unclipped,
the supplied score, an all-zero keypoint placeholder and an all-one
visibility placeholder of the configured keypoint count, and sequential
fresh ids 0, 1, 2, … per emitted record. -/
theorem det_adapter_spec (meta : MetaInfo) (imgDir : String)
    (coco : CocoIndex) (dets : List Det) (out : List Record)
    (h : loadDetectionResults meta imgDir coco dets = some out) :
    List.Forall₂
      (fun d r =>
        r.image_id = d.image_id ∧
        bboxOfList d.bbox = some r.bbox ∧
        r.bbox_score = d.score ∧
        r.keypoints = List.replicate meta.num_keypoints (0, 0) ∧
        r.keypoints_visible = List.replicate meta.num_keypoints 1)
      (dets.filter (fun d => d.category_id == 1)) out ∧
    out.map Record.id = List.range out.length := by
  have hs := loadDetGo_spec meta imgDir coco dets 0 out h
  rw [List.range_eq_range']
  exact hs

/-- Sample annotation index for detection-adapter witnesses. -/
def exCocoDet : CocoIndex := ⟨[⟨1, "a.jpg", 10, 10⟩], []⟩

/-- Sample detection list for witnesses: a person detection and a
non-person detection on image 1. -/
def exDets : List Det :=
  [⟨1, 1, [1, 2, 3, 4, 5], 9 / 10⟩, ⟨1, 2, [0, 0, 1, 1], 1 / 2⟩]

/-- Claim C6 witness: on `exDets` the non-person detection is skipped and
the single emitted record gets id 0. -/
theorem det_adapter_spec_w :
    List.Forall₂
      (fun d r =>
        r.image_id = d.image_id ∧
        bboxOfList d.bbox = some r.bbox ∧
        r.bbox_score = d.score ∧
        r.keypoints = List.replicate exMeta.num_keypoints (0, 0) ∧
        r.keypoints_visible = List.replicate exMeta.num_keypoints 1)
      (exDets.filter (fun d => d.category_id == 1))
      ((loadDetectionResults exMeta "d" exCocoDet exDets).getD []) ∧
    ((loadDetectionResults exMeta "d" exCocoDet exDets).getD []).map
        Record.id =
      List.range
        ((loadDetectionResults exMeta "d" exCocoDet exDets).getD []).length :=
  det_adapter_spec exMeta "d" exCocoDet exDets
    ((loadDetectionResults exMeta "d" exCocoDet exDets).getD []) (by rfl)

/-- Sample record with a custom detection score for Post-Filter
witnesses. -/
def mkScored (q : ℚ) (i : Nat) : Record :=
  { mkRec 1 0 2 ⟨0, 0, 5, 5⟩ i none with bbox_score := q }

/-- Sample record list with scores 9, 4, 6 (the spec's Post-Filter
scenario 0.9, 0.4, 0.6 scaled by ten so that concrete evaluation stays in
kernel-reducible integer rationals). -/
def exScores : List Record :=
  [mkScored 9 0, mkScored 4 1, mkScored 6 2]

/-- Claim C7: the Post-Filter returns the list unchanged when no score
threshold is configured (missing filter config or missing threshold key),
and with a configured threshold (in topdown mode, where it applies) it
returns exactly the order-preserving subsequence of records whose
`bbox_score` is not below the threshold: a record survives iff its score
is ≥ the threshold. -/
theorem post_filter_spec (l : List Record) :
    (∀ data_mode, filter_data data_mode none l = .ok l) ∧
    (∀ data_mode, filter_data data_mode (some ⟨none⟩) l = .ok l) ∧
    (∀ thr : ℚ,
      filter_data "topdown" (some ⟨some thr⟩) l =
        .ok (l.filter (fun r => ! decide (r.bbox_score < thr))) ∧
      (l.filter (fun r => ! decide (r.bbox_score < thr))).Sublist l ∧
      (∀ r ∈ l,
        (r ∈ l.filter (fun r => ! decide (r.bbox_score < thr)) ↔
          thr ≤ r.bbox_score))) := by
  refine ⟨fun _ => rfl, fun _ => rfl,
    fun thr => ⟨rfl, List.filter_sublist l, ?_⟩⟩
  intro r hr
  rw [List.mem_filter]
  constructor
  · rintro ⟨-, hp⟩
    rw [Bool.not_eq_true', decide_eq_false_iff_not] at hp
    exact not_lt.mp hp
  · intro hle
    refine ⟨hr, ?_⟩
    rw [Bool.not_eq_true', decide_eq_false_iff_not]
    exact not_lt.mpr hle

/-- Claim C7 witness on the (scaled) spec scenario: scores 9, 4, 6 with
threshold 5 keep exactly the records scored 9 and 6, in order. -/
theorem post_filter_spec_w :
    filter_data "topdown" (some ⟨some 5⟩) exScores =
      .ok (exScores.filter (fun r => ! decide (r.bbox_score < 5))) ∧
    (exScores.filter (fun r => ! decide (r.bbox_score < 5))).Sublist
      exScores ∧
    (mkScored 6 2 ∈
        exScores.filter (fun r => ! decide (r.bbox_score < 5)) ↔
      (5 : ℚ) ≤ (mkScored 6 2).bbox_score) ∧
    (exScores.filter (fun r => ! decide (r.bbox_score < 5))).map
        Record.bbox_score = [9, 6] :=
  ⟨((post_filter_spec exScores).2.2 5).1,
    ((post_filter_spec exScores).2.2 5).2.1,
    ((post_filter_spec exScores).2.2 5).2.2 (mkScored 6 2) (by decide),
    by decide⟩

/-- Claim C8 counterexample: with `data_mode = bottomup`, no `bbox_file`,
`test_mode` disabled and a configured `bbox_score_thr`, every constructor
check passes, yet full initialization fails at the filter stage — the
stage that consumes the already-loaded data list — so the
`bbox_score_thr` configuration error is not raised before the annotation
load, contrary to the claim. -/
theorem config_errors_ctrex :
    initChecks "bottomup" none false = .ok () ∧
    fullInit "bottomup" none false (some ⟨some (1 / 2)⟩) exMeta "d"
        ⟨[exImg], []⟩ [] =
      .error (Stage.filterStage,
        "bbox_score_thr is only supported in topdown mode") ∧
    Stage.filterStage ≠ Stage.configCheck := by
  refine ⟨rfl, rfl, by decide⟩

/-- Claim C8 (amended): the three constructor checks — invalid
`data_mode`, `bbox_file` outside topdown mode, `bbox_file` without test
mode — are fatal at construction, before any load (their outcome is
independent of the annotation index and detection data); the
`bbox_score_thr`-outside-topdown error is also fatal but is raised at the
data-filtering stage, which runs on the already-loaded data list. -/
theorem config_error_stages :
    (∀ dm bf tm, dm ≠ "topdown" → dm ≠ "bottomup" →
      initChecks dm bf tm = .error "invalid data_mode" ∧
      ∀ fc meta imgDir coco dets,
        fullInit dm bf tm fc meta imgDir coco dets =
          .error (Stage.configCheck, "invalid data_mode")) ∧
    (∀ bf tm, strTruthy bf = true →
      initChecks "bottomup" bf tm =
        .error "bbox_file is only supported in topdown mode" ∧
      ∀ fc meta imgDir coco dets,
        fullInit "bottomup" bf tm fc meta imgDir coco dets =
          .error (Stage.configCheck,
            "bbox_file is only supported in topdown mode")) ∧
    (∀ bf, strTruthy bf = true →
      initChecks "topdown" bf false =
        .error "bbox_file is only supported when test_mode is true" ∧
      ∀ fc meta imgDir coco dets,
        fullInit "topdown" bf false fc meta imgDir coco dets =
          .error (Stage.configCheck,
            "bbox_file is only supported when test_mode is true")) ∧
    (∀ tm thr meta imgDir coco dets,
      initChecks "bottomup" none tm = .ok () ∧
      fullInit "bottomup" none tm (some ⟨some thr⟩) meta imgDir coco dets =
        .error (Stage.filterStage,
          "bbox_score_thr is only supported in topdown mode")) := by
  refine ⟨?_, ?_, ?_, ?_⟩
  · intro dm bf tm h1 h2
    have hi : initChecks dm bf tm = .error "invalid data_mode" := by
      unfold initChecks
      rw [if_pos ⟨h1, h2⟩]
    refine ⟨hi, ?_⟩
    intro fc meta imgDir coco dets
    unfold fullInit
    rw [hi]
  · intro bf tm hbf
    have hi : initChecks "bottomup" bf tm =
        .error "bbox_file is only supported in topdown mode" := by
      unfold initChecks
      rw [if_neg (fun hcon => hcon.2 rfl),
        if_pos ⟨hbf, by decide⟩]
    refine ⟨hi, ?_⟩
    intro fc meta imgDir coco dets
    unfold fullInit
    rw [hi]
  · intro bf hbf
    have hi : initChecks "topdown" bf false =
        .error "bbox_file is only supported when test_mode is true" := by
      unfold initChecks
      rw [if_neg (fun hcon => hcon.1 rfl),
        if_neg (fun hcon => hcon.2 rfl),
        if_pos ⟨hbf, by decide⟩]
    refine ⟨hi, ?_⟩
    intro fc meta imgDir coco dets
    unfold fullInit
    rw [hi]
  · intro tm thr meta imgDir coco dets
    have hi : initChecks "bottomup" none tm = .ok () := by
      unfold initChecks
      rw [if_neg (fun hcon => hcon.2 rfl),
        if_neg (fun hcon => Bool.false_ne_true hcon.1),
        if_neg (fun hcon => Bool.false_ne_true hcon.1)]
    refine ⟨hi, ?_⟩
    unfold fullInit
    rw [hi]
    exact rfl

/-- Claim C8 witness: concrete instances of the three constructor-stage
errors and of the filter-stage error. -/
theorem config_error_stages_w :
    initChecks "sideways" (some "det.json") true =
      .error "invalid data_mode" ∧
    fullInit "sideways" (some "det.json") true none exMeta "d"
        ⟨[exImg], []⟩ [] =
      .error (Stage.configCheck, "invalid data_mode") ∧
    initChecks "bottomup" (some "det.json") true =
      .error "bbox_file is only supported in topdown mode" ∧
    fullInit "bottomup" (some "det.json") true none exMeta "d"
        ⟨[exImg], []⟩ [] =
      .error (Stage.configCheck,
        "bbox_file is only supported in topdown mode") ∧
    initChecks "topdown" (some "det.json") false =
      .error "bbox_file is only supported when test_mode is true" ∧
    fullInit "topdown" (some "det.json") false none exMeta "d"
        ⟨[exImg], []⟩ [] =
      .error (Stage.configCheck,
        "bbox_file is only supported when test_mode is true") ∧
    initChecks "bottomup" none true = .ok () ∧
    fullInit "bottomup" none true (some ⟨some (3 / 10)⟩) exMeta "d"
        ⟨[exImg], []⟩ [] =
      .error (Stage.filterStage,
        "bbox_score_thr is only supported in topdown mode") :=
  ⟨(config_error_stages.1 "sideways" (some "det.json") true (by decide)
      (by decide)).1,
    (config_error_stages.1 "sideways" (some "det.json") true (by decide)
      (by decide)).2 none exMeta "d" ⟨[exImg], []⟩ [],
    (config_error_stages.2.1 (some "det.json") true (by decide)).1,
    (config_error_stages.2.1 (some "det.json") true (by decide)).2 none
      exMeta "d" ⟨[exImg], []⟩ [],
    (config_error_stages.2.2.1 (some "det.json") (by decide)).1,
    (config_error_stages.2.2.1 (some "det.json") (by decide)).2 none
      exMeta "d" ⟨[exImg], []⟩ [],
    (config_error_stages.2.2.2 true (3 / 10) exMeta "d" ⟨[exImg], []⟩ []).1,
    (config_error_stages.2.2.2 true (3 / 10) exMeta "d" ⟨[exImg], []⟩ []).2⟩

theorem loadDetGo_sigmas (meta : MetaInfo) (imgDir : String)
    (coco : CocoIndex) (dets : List Det) (i : Nat) (out : List Record)
    (h : loadDetGo meta imgDir coco dets i = some out) :
    ∀ r ∈ out, r.sigmas = none := by
  induction dets generalizing i out with
  | nil =>
    cases h
    intro r hr
    exact absurd hr (List.not_mem_nil r)
  | cons det rest ih =>
    rw [loadDetGo] at h
    by_cases hc : det.category_id ≠ 1
    · rw [if_pos hc] at h
      exact ih i out h
    · rw [if_neg hc] at h
      cases himg : loadImg coco det.image_id with
      | none => rw [himg] at h; cases h
      | some img =>
        cases hbb : bboxOfList det.bbox with
        | none => rw [himg, hbb] at h; cases h
        | some bb =>
          rw [himg, hbb] at h
          dsimp only at h
          rcases Option.map_eq_some'.mp h with ⟨tl, htl, rfl⟩
          intro r hr
          rcases List.mem_cons.mp hr with rfl | hr'
          · rfl
          · exact ih (i + 1) tl htl r hr'

theorem assembleGroup_sigmas {k : Nat} {grp : List Record} {a : AggRecord}
    (h : assembleGroup k grp = some a) :
    ∃ v0 ∈ grp, a.sigmas = v0.sigmas := by
  unfold assembleGroup at h
  cases hf : grp.filter isValidInstance with
  | nil => rw [hf] at h; cases h
  | cons v0 vs =>
    rw [hf] at h
    dsimp only at h
    cases h
    have hv0 : v0 ∈ grp := by
      refine List.mem_of_mem_filter (p := isValidInstance) ?_
      rw [hf]
      exact List.mem_cons_self v0 vs
    exact ⟨v0, hv0, rfl⟩

/-- Claim C9 counterexample: the Detection-Result Adapter emits records
with NO `sigmas` field — on a concrete run with nonempty metadata sigmas
the single emitted record's `sigmas` is absent (`none`), so not every
record produced by the system carries the metadata sigmas. -/
theorem sigmas_ctrex :
    (loadDetectionResults exMeta "d" exCocoDet exDets).map
        (fun l => l.map Record.sigmas) = some [none] ∧
    exMeta.sigmas = [1] :=
  ⟨rfl, rfl⟩

/-- Claim C9 (amended): every record produced by the ground-truth
annotation path carries `sigmas` copied from the dataset metadata (the
same value on every record), and every bottomup aggregate inherits that
same value from its first valid instance; records produced by the
Detection-Result Adapter carry no `sigmas` field at all. -/
theorem sigmas_presence (meta : MetaInfo) (imgDir : String)
    (coco : CocoIndex) :
    (∀ r ∈ loadAnnotations meta imgDir coco, r.sigmas = some meta.sigmas) ∧
    (∀ a ∈ getBottomupDataInfos (loadAnnotations meta imgDir coco),
      a.sigmas = some meta.sigmas) ∧
    (∀ dets out, loadDetectionResults meta imgDir coco dets = some out →
      ∀ r ∈ out, r.sigmas = none) := by
  have hann : ∀ r ∈ loadAnnotations meta imgDir coco,
      r.sigmas = some meta.sigmas := by
    intro r hr
    rcases List.mem_flatMap.mp hr with ⟨img, himg, hr2⟩
    rcases List.mem_map.mp hr2 with ⟨a, ha, rfl⟩
    rfl
  refine ⟨hann, ?_, ?_⟩
  · intro a ha
    rcases List.mem_filterMap.mp ha with ⟨g, hg, hga⟩
    rcases assembleGroup_sigmas hga with ⟨v0, hv0, hs⟩
    have hmem :=
      (groupByKey_sound Record.image_id _ g hg v0 hv0).1
    rw [hs]
    exact hann v0 hmem
  · intro dets out h
    exact loadDetGo_sigmas meta imgDir coco dets 0 out h

/-- Sample annotation index for ground-truth-path witnesses: one image
with one non-crowd annotated instance. -/
def exCocoAnn : CocoIndex :=
  ⟨[exImg], [⟨0, 1, ⟨0, 0, 5, 5⟩, [], some 5, some 0, none⟩]⟩

/-- Claim C9 witness: the concrete parsed record of `exCocoAnn` carries
the metadata sigmas. -/
theorem sigmas_presence_w :
    (parse_data_info exMeta "d"
        ⟨0, 1, ⟨0, 0, 5, 5⟩, [], some 5, some 0, none⟩ exImg).sigmas =
      some exMeta.sigmas :=
  (sigmas_presence exMeta "d" exCocoAnn).1 _ (List.Mem.head _)

/-- Validity check with the crowd test removed: what
`_is_valid_instance` reduces to on records whose crowd flag is falsy. -/
def validIgnoringCrowd (r : Record) : Bool :=
  match r.num_keypoints with
  | none => false
  | some nkp =>
    if nkp = 0 then false
    else if r.bbox.w ≤ 0 ∨ r.bbox.h ≤ 0 then false
    else true

/-- Claim C10: every record of the ground-truth load path has a falsy
crowd flag (the annotation enumeration uses the non-crowd filter), so on
this path the Validator never rejects an instance for being a crowd —
validity coincides with the crowd-blind check — and the crowd branch of
the invalid-mask computation never fires: every mask contribution of such
a record is a per-part mask, never a whole-descriptor crowd mask. -/
theorem load_path_noncrowd (meta : MetaInfo) (imgDir : String)
    (coco : CocoIndex) :
    ∀ r ∈ loadAnnotations meta imgDir coco,
      r.iscrowd = some 0 ∧
      isValidInstance r = validIgnoringCrowd r ∧
      ∀ imgH imgW, ∀ e ∈ instInvalidRLEs imgH imgW r,
        ∃ p, e = RLE.part p imgH imgW := by
  intro r hr
  rcases List.mem_flatMap.mp hr with ⟨img, himg, hr2⟩
  rcases List.mem_map.mp hr2 with ⟨a, ha, rfl⟩
  have ha2 := (List.mem_filter.mp ha).2
  have hcrowd : a.iscrowd.getD 0 = 0 := (of_decide_eq_true ha2).2
  have hic : (parse_data_info meta imgDir a img).iscrowd = some 0 := by
    show some (a.iscrowd.getD 0) = some 0
    rw [hcrowd]
  refine ⟨hic, ?_, ?_⟩
  · unfold isValidInstance validIgnoringCrowd
    rw [hic]
    dsimp only
    rw [if_neg (show ¬ ((0 : Nat) ≠ 0) from fun hcon => hcon rfl)]
  · intro imgH imgW e he
    unfold instInvalidRLEs at he
    cases hseg : (parse_data_info meta imgDir a img).segmentation with
    | none =>
      rw [hseg] at he
      exact absurd he (List.not_mem_nil e)
    | some seg =>
      rw [hseg] at he
      dsimp only at he
      by_cases hne : seg = []
      · rw [if_pos hne] at he
        exact absurd he (List.not_mem_nil e)
      · rw [if_neg hne] at he
        rw [if_neg (show
            ¬ (parse_data_info meta imgDir a img).iscrowd.getD 0 ≠ 0 by
          rw [hic]
          exact fun hcon => hcon rfl)] at he
        by_cases hk :
            (parse_data_info meta imgDir a img).num_keypoints.getD 1 = 0
        · rw [if_pos hk] at he
          rcases List.mem_map.mp he with ⟨p, hp, rfl⟩
          exact ⟨p, rfl⟩
        · rw [if_neg hk] at he
          exact absurd he (List.not_mem_nil e)

/-- Claim C10 witness on the concrete index `exCocoAnn`. -/
theorem load_path_noncrowd_w :
    (parse_data_info exMeta "d"
        ⟨0, 1, ⟨0, 0, 5, 5⟩, [], some 5, some 0, none⟩ exImg).iscrowd =
      some 0 ∧
    isValidInstance (parse_data_info exMeta "d"
        ⟨0, 1, ⟨0, 0, 5, 5⟩, [], some 5, some 0, none⟩ exImg) =
      validIgnoringCrowd (parse_data_info exMeta "d"
        ⟨0, 1, ⟨0, 0, 5, 5⟩, [], some 5, some 0, none⟩ exImg) ∧
    ∀ imgH imgW, ∀ e ∈ instInvalidRLEs imgH imgW (parse_data_info exMeta
        "d" ⟨0, 1, ⟨0, 0, 5, 5⟩, [], some 5, some 0, none⟩ exImg),
      ∃ p, e = RLE.part p imgH imgW :=
  load_path_noncrowd exMeta "d" exCocoAnn _ (List.Mem.head _)

end CocoDS
